import Mathlib

/-!
Verification of the dup-finder duplicate-detection and interactive-resolution
engine, as a shallow embedding of the Go sources.

File I/O is embedded as oracles passed to the functions that perform it:
`hashFile : String → Option String` models `CalculateFileHash` (the xxHash of
the file at a path, or `none` when opening/reading the file fails), and
`deleter : String → DeletionResult` models the external `SafeDelete`
collaborator.  User interaction is embedded as a script: each call the session
makes to `PromptUserAction` consumes the next entry of a
`List (Except String UserAction)` (the `Except.error` entries model
`PromptUserAction` returning an error, which is how quit, finish and input
failures surface in the Go code), and the single `ConfirmDeletion` call is a
`Bool`.  `ComputeHashesParallel`'s worker pool processes every submitted
record exactly once and the call returns only after all records were
attempted, so its observable effect on the records is the per-record map
embedded below.
-/

namespace DupFinder

/-- `models.FileInfo` (internal/models/models.go). `ModTime` is opaque to every
claim, kept as a `Nat` tick. -/
structure FileInfo where
  path : String := ""
  directory : String := ""
  size : Int := 0
  modTime : Nat := 0
  hash : String := ""
  deriving Repr, DecidableEq, Inhabited

/-- `models.FileMatch`. -/
structure FileMatch where
  filename : String := ""
  file1 : FileInfo := {}
  file2 : FileInfo := {}
  hashChecked : Bool := false
  hashMatch : Bool := false
  deriving Repr, DecidableEq, Inhabited

/-- `models.PairComparison`. -/
structure PairComparison where
  dir1 : String := ""
  dir2 : String := ""
  fileMatches : List FileMatch := []
  deriving Repr, DecidableEq, Inhabited

/-- `models.ScanOptions` (only the fields the verified core reads). -/
structure ScanOptions where
  directories : List String := []
  compareHash : Bool := false
  numWorkers : Nat := 0
  deriving Repr, DecidableEq, Inhabited

/-- `models.DuplicateSet` as used by internal/interactive (fields `ID`,
`Files`, `Hash`, `HashComputed`). -/
structure DuplicateSet where
  id : Nat := 0
  files : List FileInfo := []
  hash : String := ""
  hashComputed : Bool := false
  deriving Repr, DecidableEq, Inhabited

/-- `models.UserAction`. -/
structure UserAction where
  action : String := ""
  keepFile : String := ""
  deleteFile : String := ""
  keepDirectory : String := ""
  deleteDirectory : String := ""
  deriving Repr, DecidableEq, Inhabited

/-- `models.DeletionResult`; the Go `Error error` field is kept as a message
string. -/
structure DeletionResult where
  path : String := ""
  success : Bool := false
  errMsg : String := ""
  sizeFreed : Int := 0
  deriving Repr, DecidableEq, Inhabited

/-- `models.SessionSummary`. -/
structure SessionSummary where
  totalSets : Nat := 0
  setsProcessed : Nat := 0
  filesDeleted : Nat := 0
  filesFailed : Nat := 0
  spaceFreed : Int := 0
  results : List DeletionResult := []
  deriving Repr, DecidableEq, Inhabited

/-! ### path/filepath.Base (Unix separators) -/

/-- `filepath.Base`: empty path gives ".", trailing separators are removed,
the last path component is returned, an all-separator path gives "/". -/
def filepathBase (p : String) : String :=
  if p = "" then "."
  else
    let cs := (p.data.reverse.dropWhile (· == '/'))
    if cs = [] then "/"
    else String.mk (cs.takeWhile (· != '/')).reverse

/-- The basename key `groupByName` files a record under. -/
def baseOf (f : FileInfo) : String := filepathBase f.path

/-! ### internal/finder/finder.go -/

/-- One Go map assignment `m[k] = v`: any earlier binding of `k` is
replaced by the new one.  (A Go map's iteration order is unspecified, so the
model is free to keep the updated binding at the back; every claim is
insensitive to the order, and `ComparePair` sorts its output anyway.) -/
def mapInsert (m : List (String × FileInfo)) (k : String) (v : FileInfo) :
    List (String × FileInfo) :=
  m.filter (fun p => p.1 != k) ++ [(k, v)]

/-- `groupByName` (finder.go:57): builds the basename → record map; a later
record with the same basename overwrites an earlier one. -/
def groupByName (files : List FileInfo) : List (String × FileInfo) :=
  files.foldl (fun m f => mapInsert m (baseOf f) f) []

/-- `findCommonFiles` (finder.go:67): one `FileMatch` per basename of
`group1` that also appears in `group2`. -/
def findCommonFiles (group1 group2 : List (String × FileInfo)) :
    List FileMatch :=
  group1.filterMap (fun p =>
    match group2.lookup p.1 with
    | some f2 => some { filename := p.1, file1 := p.2, file2 := f2,
                        hashChecked := false, hashMatch := false }
    | none => none)

/-- One worker iteration of `ComputeHashesParallel` on one record: hash the
file at the record's path; on failure leave the record untouched (the error
only goes to the error channel). -/
def hashRecord (hashFile : String → Option String) (f : FileInfo) : FileInfo :=
  match hashFile f.path with
  | some h => { f with hash := h }
  | none => f

/-- `ComputeHashesParallel` (comparator.go): every submitted record is
attempted exactly once; there is no check of an already-populated `Hash`. -/
def ComputeHashesParallel (hashFile : String → Option String)
    (files : List FileInfo) : List FileInfo :=
  files.map (hashRecord hashFile)

/-- `computeHashesForMatches` (finder.go:84): hash both sides of every match,
then unconditionally set `HashChecked` and recompute `HashMatch`. -/
def computeHashesForMatches (hashFile : String → Option String)
    (fileMatches : List FileMatch) : List FileMatch :=
  (fileMatches.map (fun m =>
      { m with file1 := hashRecord hashFile m.file1,
               file2 := hashRecord hashFile m.file2 })).map
    (fun m =>
      { m with hashChecked := true,
               hashMatch := m.file1.hash == m.file2.hash &&
                            m.file1.hash != "" })

/-- One step of the insertion sort used to model
`sort.Slice(fileMatches, Filename <)` (finder.go:45). -/
def insertByFilename (m : FileMatch) : List FileMatch → List FileMatch
  | [] => [m]
  | x :: xs =>
      if m.filename ≤ x.filename then m :: x :: xs
      else x :: insertByFilename m xs

/-- Sorting of the match list by filename ascending (finder.go:45). -/
def sortMatches (l : List FileMatch) : List FileMatch :=
  l.foldr insertByFilename []

/-- `Finder.ComparePair` (finder.go:22). -/
def ComparePair (opts : ScanOptions) (hashFile : String → Option String)
    (dir1Files dir2Files : List FileInfo) : PairComparison :=
  let group1 := groupByName dir1Files
  let group2 := groupByName dir2Files
  let fileMatches := findCommonFiles group1 group2
  let fileMatches :=
    if opts.compareHash && !fileMatches.isEmpty then
      computeHashesForMatches hashFile fileMatches
    else fileMatches
  let dir1 := match dir1Files with | [] => "" | f :: _ => f.directory
  let dir2 := match dir2Files with | [] => "" | f :: _ => f.directory
  { dir1 := dir1, dir2 := dir2, fileMatches := sortMatches fileMatches }

/-- `GeneratePairs` (finder.go:109): the nested `i < j` index loops, written
structurally — the head element is paired with each later element in order,
then the tail is enumerated the same way. -/
def GeneratePairs : List String → List (String × String)
  | [] => []
  | d :: ds => ds.map (fun x => (d, x)) ++ GeneratePairs ds

/-! ### internal/interactive/session.go -/

/-- `convertToDuplicateSets` (session.go:166): one `DuplicateSet` per
`FileMatch`, unconditionally, with no hash carried over to the set header
(`Hash` empty, `HashComputed` false); `numWorkers` is accepted and unused,
as in the Go signature. -/
def convertToDuplicateSets (comparisons : List PairComparison)
    (numWorkers : Nat) : List DuplicateSet :=
  comparisons.flatMap (fun comp =>
    comp.fileMatches.map (fun m =>
      { hash := "", hashComputed := false, files := [m.file1, m.file2] }))

/-- `computeHashForSet` (session.go:184): hash the members whose fingerprint
is empty; if none need hashing, mark the set computed at once; otherwise
verify that all members end with the first member's fingerprint, failing with
"hash mismatch". -/
def computeHashForSet (hashFile : String → Option String)
    (set : DuplicateSet) : Except String DuplicateSet :=
  let needsHash := set.files.filter (fun f => f.hash == "")
  if needsHash.isEmpty then .ok { set with hashComputed := true }
  else
    let files2 := set.files.map (fun f =>
      if f.hash == "" then hashRecord hashFile f else f)
    match files2 with
    | [] => .ok { set with files := files2, hashComputed := true }
    | f0 :: rest =>
        if rest.all (fun f => f.hash == f0.hash) then
          .ok { set with files := files2, hash := f0.hash,
                         hashComputed := true }
        else .error "hash mismatch"

/-- The delete actions batch mode records for one set (session.go:33-51):
derive the delete directory from the remembered keep side, then record one
delete action per member living in it. -/
def batchDeleteActions (batchDirAction : String) (set : DuplicateSet) :
    List UserAction :=
  let deleteDir :=
    if batchDirAction == "keep_dir1" then (set.files.getD 1 default).directory
    else (set.files.getD 0 default).directory
  (set.files.filter (fun f => f.directory == deleteDir)).map
    (fun f => { action := "delete", deleteFile := f.path })

/-- Handling of a non-`compute_hash` action for the current set
(session.go:101-129): `batch_delete_by_dir` activates batch mode and records
deletes for the current set, `delete` is recorded, anything else records
nothing.  Returns the updated batch flag and action list. -/
def applyAction (set : DuplicateSet) (batchDirAction : String)
    (actions : List UserAction) (action : UserAction) :
    String × List UserAction :=
  if action.action == "batch_delete_by_dir" then
    let newBatch :=
      if action.keepDirectory == (set.files.getD 0 default).directory then
        "keep_dir1"
      else "keep_dir2"
    (newBatch,
     actions ++ (set.files.filter
        (fun f => f.directory == action.deleteDirectory)).map
        (fun f => { action := "delete", deleteFile := f.path }))
  else if action.action == "delete" then (batchDirAction, actions ++ [action])
  else (batchDirAction, actions)

/-- The per-set browsing loop of `RunInteractiveSession` (session.go:29-129).
Returns the accumulated actions together with the unconsumed prompt script,
or the error that aborted the session (`break` on "user finished" is a normal
exit).  An exhausted prompt script models `fmt.Scanln` failing. -/
def browse (hashFile : String → Option String) :
    List DuplicateSet → List (Except String UserAction) → String →
    List UserAction →
    Except String (List UserAction × List (Except String UserAction))
  | [], prompts, _, actions => .ok (actions, prompts)
  | set :: rest, prompts, batchDirAction, actions =>
    if batchDirAction != "" then
      browse hashFile rest prompts batchDirAction
        (actions ++ batchDeleteActions batchDirAction set)
    else
      match prompts with
      | [] => .error "failed to read input"
      | p :: prompts1 =>
        match p with
        | .error e =>
            if e == "user finished" then .ok (actions, prompts1)
            else .error e
        | .ok action =>
          if action.action == "compute_hash" then
            match computeHashForSet hashFile set with
            | .error e =>
                if e == "hash mismatch" then
                  browse hashFile rest prompts1 batchDirAction actions
                else .error e
            | .ok set1 =>
              match prompts1 with
              | [] => .error "failed to read input"
              | p2 :: prompts2 =>
                match p2 with
                | .error e =>
                    if e == "user finished" then .ok (actions, prompts2)
                    else .error e
                | .ok action2 =>
                    let st := applyAction set1 batchDirAction actions action2
                    browse hashFile rest prompts2 st.1 st.2
          else
            let st := applyAction set batchDirAction actions action
            browse hashFile rest prompts1 st.1 st.2

/-- The deletion loop of `RunInteractiveSession` (session.go:149-159): one
`SafeDelete` call per action, in order, tallying into the summary. -/
def executeDeletions (deleter : String → DeletionResult)
    (base : SessionSummary) (actions : List UserAction) : SessionSummary :=
  actions.foldl (fun s a =>
    let r := deleter a.deleteFile
    let s1 := { s with results := s.results ++ [r] }
    if r.success then
      { s1 with filesDeleted := s1.filesDeleted + 1,
                spaceFreed := s1.spaceFreed + r.sizeFreed }
    else { s1 with filesFailed := s1.filesFailed + 1 }) base

/-- `RunInteractiveSession` (session.go:12).  Besides the Go result
(summary or error), the embedding returns the log of paths passed to the
external `SafeDelete` collaborator, so that non-invocation is observable. -/
def runInteractiveSession (hashFile : String → Option String)
    (deleter : String → DeletionResult) (comparisons : List PairComparison)
    (opts : ScanOptions) (prompts : List (Except String UserAction))
    (confirm : Bool) : Except String SessionSummary × List String :=
  let sets := convertToDuplicateSets comparisons opts.numWorkers
  if sets.isEmpty then (.ok {}, [])
  else
    match browse hashFile sets prompts "" [] with
    | .error e => (.error e, [])
    | .ok (actions, _) =>
      if actions.isEmpty then (.ok { totalSets := sets.length }, [])
      else if !confirm then (.ok { totalSets := sets.length }, [])
      else
        (.ok (executeDeletions deleter
                { totalSets := sets.length,
                  setsProcessed := actions.length } actions),
         actions.map (fun a => a.deleteFile))

/-! ### Generic association-list lemmas (shared by several claims) -/

theorem lookup_eq_none_iff {α β : Type} [BEq α] [LawfulBEq α]
    (l : List (α × β)) (a : α) : l.lookup a = none ↔ a ∉ l.map Prod.fst := by
  induction l with
  | nil => simp [List.lookup]
  | cons p t ih =>
    obtain ⟨k, v⟩ := p
    by_cases h : a = k
    · subst h; simp [List.lookup]
    · rw [List.lookup, show (a == k) = false from beq_eq_false_iff_ne.2 h]
      simp only [List.map_cons, List.mem_cons, not_or]
      exact ⟨fun hn => ⟨h, ih.1 hn⟩, fun hc => ih.2 hc.2⟩

theorem lookup_isSome_iff {α β : Type} [BEq α] [LawfulBEq α]
    (l : List (α × β)) (a : α) :
    (l.lookup a).isSome = true ↔ a ∈ l.map Prod.fst := by
  cases h : l.lookup a with
  | none =>
    simp only [Option.isSome_none, Bool.false_eq_true, false_iff]
    exact (lookup_eq_none_iff l a).1 h
  | some v =>
    simp only [Option.isSome_some, true_iff]
    by_contra hmem
    rw [(lookup_eq_none_iff l a).2 hmem] at h
    exact Option.noConfusion h

/-! ### `GeneratePairs` lemmas and claim C4 -/

theorem mem_GeneratePairs_mem {ds : List String} {p : String × String}
    (hp : p ∈ GeneratePairs ds) : p.1 ∈ ds ∧ p.2 ∈ ds := by
  induction ds with
  | nil => simp [GeneratePairs] at hp
  | cons d t ih =>
    rw [GeneratePairs, List.mem_append] at hp
    rcases hp with hp | hp
    · obtain ⟨x, hx, rfl⟩ := List.mem_map.1 hp
      exact ⟨List.mem_cons_self d t, List.mem_cons_of_mem d hx⟩
    · exact ⟨List.mem_cons_of_mem d (ih hp).1, List.mem_cons_of_mem d (ih hp).2⟩

theorem two_mul_length_GeneratePairs (ds : List String) :
    2 * (GeneratePairs ds).length = ds.length * (ds.length - 1) := by
  induction ds with
  | nil => rfl
  | cons d t ih =>
    rw [GeneratePairs, List.length_append, List.length_map, List.length_cons]
    calc 2 * (t.length + (GeneratePairs t).length)
        = 2 * t.length + 2 * (GeneratePairs t).length := by ring
      _ = 2 * t.length + t.length * (t.length - 1) := by rw [ih]
      _ = (t.length + 1) * (t.length + 1 - 1) := by
          cases t.length with
          | zero => rfl
          | succ k => simp only [Nat.add_sub_cancel]; ring

theorem nodup_GeneratePairs {ds : List String} (h : ds.Nodup) :
    (GeneratePairs ds).Nodup := by
  induction ds with
  | nil => exact List.nodup_nil
  | cons d t ih =>
    rw [GeneratePairs]
    rcases List.nodup_cons.1 h with ⟨hd, ht⟩
    refine List.Nodup.append ?_ (ih ht) ?_
    · exact ht.map (fun a b hab => congrArg Prod.snd hab)
    · intro p hp1 hp2
      obtain ⟨x, _, rfl⟩ := List.mem_map.1 hp1
      exact hd ((mem_GeneratePairs_mem hp2).1)

theorem not_selfPair_GeneratePairs {ds : List String} (h : ds.Nodup) :
    ∀ p ∈ GeneratePairs ds, p.1 ≠ p.2 := by
  induction ds with
  | nil => intro p hp; simp [GeneratePairs] at hp
  | cons d t ih =>
    rcases List.nodup_cons.1 h with ⟨hd, ht⟩
    intro p hp
    rw [GeneratePairs, List.mem_append] at hp
    rcases hp with hp | hp
    · obtain ⟨x, hx, rfl⟩ := List.mem_map.1 hp
      intro hdx
      have hde : d = x := hdx
      exact hd (by rw [hde]; exact hx)
    · exact ih ht p hp

theorem not_revPair_GeneratePairs {ds : List String} (h : ds.Nodup) :
    ∀ p ∈ GeneratePairs ds, (p.2, p.1) ∉ GeneratePairs ds := by
  induction ds with
  | nil => intro p hp; simp [GeneratePairs] at hp
  | cons d t ih =>
    rcases List.nodup_cons.1 h with ⟨hd, ht⟩
    intro p hp hrev
    rw [GeneratePairs, List.mem_append] at hp hrev
    rcases hp with hp | hp <;> rcases hrev with hrev | hrev
    · obtain ⟨x, hx, rfl⟩ := List.mem_map.1 hp
      obtain ⟨y, hy, hpy⟩ := List.mem_map.1 hrev
      have h1 : d = x := by simpa using congrArg Prod.fst hpy
      exact hd (by rw [h1]; exact hx)
    · obtain ⟨x, hx, rfl⟩ := List.mem_map.1 hp
      exact hd ((mem_GeneratePairs_mem hrev).2)
    · obtain ⟨y, hy, hpy⟩ := List.mem_map.1 hrev
      have h1 : d = p.2 := by simpa using congrArg Prod.fst hpy
      exact hd (by rw [h1]; exact (mem_GeneratePairs_mem hp).2)
    · exact ih ht p hp hrev

theorem map_getD_range {α : Type} (l : List α) (x : α) :
    (List.range l.length).map (fun j => l.getD j x) = l := by
  induction l with
  | nil => rfl
  | cons a t ih =>
    rw [List.length_cons, List.range_succ_eq_map, List.map_cons,
      List.map_map, List.getD_cons_zero]
    have hfun : ((fun j => (a :: t).getD j x) ∘ Nat.succ) =
        (fun j => t.getD j x) := by
      funext j; rfl
    rw [hfun, ih]

theorem GeneratePairs_eq_enum (ds : List String) :
    GeneratePairs ds =
      (List.range ds.length).flatMap (fun i =>
        ((List.range ds.length).drop (i + 1)).map
          (fun j => (ds.getD i "", ds.getD j ""))) := by
  induction ds with
  | nil => rfl
  | cons d t ih =>
    rw [GeneratePairs, List.length_cons, List.range_succ_eq_map,
      List.flatMap_cons, ih]
    congr 1
    · symm
      rw [List.drop_succ_cons, List.drop_zero, List.map_map]
      have hfun : ((fun j => ((d :: t).getD 0 "", (d :: t).getD j "")) ∘ Nat.succ)
          = ((fun x => (d, x)) ∘ (fun j => t.getD j "")) := by
        funext j; rfl
      rw [hfun, ← List.map_map, map_getD_range]
    · symm
      rw [List.flatMap_map]
      refine List.flatMap_congr ?_
      intro i _
      rw [List.drop_succ_cons, ← List.map_drop, List.map_map]
      have hfun : ((fun j => ((d :: t).getD i.succ "", (d :: t).getD j "")) ∘ Nat.succ)
          = (fun j => (t.getD i "", t.getD j "")) := by
        funext j; rfl
      rw [hfun]

/-- C4: On a list of K pairwise-distinct directory identifiers,
`GeneratePairs` yields exactly K(K-1)/2 pairs, with no duplicate pair, no
reversed duplicate, no self-pair, and in the standard i<j enumeration order
over the input order; as a Lean function it is pure by construction.
(Distinctness is needed: see the counterexample for a repeated identifier.) -/
theorem C4_generatePairs_spec (dirs : List String) (h : dirs.Nodup) :
    (GeneratePairs dirs).length = dirs.length * (dirs.length - 1) / 2 ∧
    (GeneratePairs dirs).Nodup ∧
    (∀ p ∈ GeneratePairs dirs, p.1 ≠ p.2 ∧ (p.2, p.1) ∉ GeneratePairs dirs) ∧
    GeneratePairs dirs =
      (List.range dirs.length).flatMap (fun i =>
        ((List.range dirs.length).drop (i + 1)).map
          (fun j => (dirs.getD i "", dirs.getD j ""))) := by
  refine ⟨?_, nodup_GeneratePairs h,
    fun p hp => ⟨not_selfPair_GeneratePairs h p hp,
                 not_revPair_GeneratePairs h p hp⟩,
    GeneratePairs_eq_enum dirs⟩
  have h2 := two_mul_length_GeneratePairs dirs
  omega

/-- C4 witness: the three-directory case, with all parts of the statement
evaluated concretely. -/
theorem C4_witness :
    (["a", "b", "c"] : List String).Nodup ∧
    (GeneratePairs ["a", "b", "c"]).length = 3 * (3 - 1) / 2 ∧
    (GeneratePairs ["a", "b", "c"]).Nodup ∧
    (∀ p ∈ GeneratePairs ["a", "b", "c"],
      p.1 ≠ p.2 ∧ (p.2, p.1) ∉ GeneratePairs ["a", "b", "c"]) := by
  have h := C4_generatePairs_spec ["a", "b", "c"] (by decide)
  exact ⟨by decide, h.1, h.2.1, h.2.2.1⟩

/-- C4 counterexample to the unqualified claim: with a repeated directory
identifier the generated list contains a self-pair (and hence the claim's
"no self-pair, for every ordered list" fails on the code). -/
theorem C4_counterexample :
    GeneratePairs ["a", "a"] = [("a", "a")] ∧
    ∃ p ∈ GeneratePairs ["a", "a"], p.1 = p.2 := by
  exact ⟨rfl, ("a", "a"), by decide, rfl⟩

/-! ### Go-map (association list) machinery for `groupByName` -/

theorem lookup_append (l1 l2 : List (String × FileInfo)) (a : String) :
    (l1 ++ l2).lookup a = (l1.lookup a).or (l2.lookup a) := by
  induction l1 with
  | nil => simp [List.lookup]
  | cons p t ih =>
    obtain ⟨c, b⟩ := p
    by_cases hac : a = c
    · subst hac; simp [List.lookup]
    · have h1 : (a == c) = false := beq_eq_false_iff_ne.2 hac
      simp [List.lookup, h1, ih]

theorem keys_mapInsert (m : List (String × FileInfo)) (k : String)
    (v : FileInfo) :
    (mapInsert m k v).map Prod.fst =
      (m.map Prod.fst).filter (fun s => s != k) ++ [k] := by
  rw [mapInsert, List.map_append, List.filter_map]
  rfl

theorem lookup_filter_ne (m : List (String × FileInfo)) (k n : String)
    (h : n ≠ k) :
    (m.filter (fun p => p.1 != k)).lookup n = m.lookup n := by
  induction m with
  | nil => rfl
  | cons p t ih =>
    obtain ⟨a, b⟩ := p
    by_cases hak : a = k
    · subst hak
      have hna : (n == a) = false := beq_eq_false_iff_ne.2 h
      simp [List.filter_cons, List.lookup, hna, ih]
    · have hk : ((a, b).1 != k) = true := bne_iff_ne.2 hak
      rw [List.filter_cons, if_pos hk]
      by_cases hna : n = a
      · subst hna; simp [List.lookup]
      · have h2 : (n == a) = false := beq_eq_false_iff_ne.2 hna
        simp [List.lookup, h2, ih]

theorem lookup_mapInsert (m : List (String × FileInfo)) (k : String)
    (v : FileInfo) (n : String) :
    (mapInsert m k v).lookup n = if n = k then some v else m.lookup n := by
  rw [mapInsert, lookup_append]
  by_cases hnk : n = k
  · subst hnk
    have hnone : (m.filter (fun p => p.1 != n)).lookup n = none := by
      refine (lookup_eq_none_iff _ n).2 ?_
      intro hmem
      obtain ⟨q, hq, hqe⟩ := List.mem_map.1 hmem
      have hbne := (List.mem_filter.1 hq).2
      rw [hqe] at hbne
      exact (bne_iff_ne.1 hbne) rfl
    simp [hnone, List.lookup]
  · rw [lookup_filter_ne m k n hnk]
    have h1 : (n == k) = false := beq_eq_false_iff_ne.2 hnk
    simp [List.lookup, h1, hnk]

theorem mem_keys_groupByName_go (files : List FileInfo) :
    ∀ (m : List (String × FileInfo)) (n : String),
    (n ∈ (files.foldl (fun m f => mapInsert m (baseOf f) f) m).map Prod.fst ↔
      n ∈ m.map Prod.fst ∨ n ∈ files.map baseOf) := by
  induction files with
  | nil => intro m n; simp
  | cons f fs ih =>
    intro m n
    rw [List.foldl_cons, ih, keys_mapInsert]
    simp only [List.mem_append, List.mem_singleton, List.mem_filter,
      List.map_cons, List.mem_cons, bne_iff_ne]
    by_cases hn : n = baseOf f <;> tauto

theorem nodup_keys_groupByName_go (files : List FileInfo) :
    ∀ m : List (String × FileInfo), (m.map Prod.fst).Nodup →
    ((files.foldl (fun m f => mapInsert m (baseOf f) f) m).map Prod.fst).Nodup := by
  induction files with
  | nil => intro m hm; simpa using hm
  | cons f fs ih =>
    intro m hm
    rw [List.foldl_cons]
    refine ih _ ?_
    rw [keys_mapInsert]
    rw [List.nodup_append]
    refine ⟨hm.filter _, List.nodup_singleton _, ?_⟩
    intro x hx hxk
    rw [List.mem_singleton] at hxk
    subst hxk
    exact (bne_iff_ne.1 ((List.mem_filter.1 hx).2)) rfl

theorem mem_lookup_of_nodup_keys :
    ∀ {l : List (String × FileInfo)}, (l.map Prod.fst).Nodup →
    ∀ {k : String} {v : FileInfo}, (k, v) ∈ l → l.lookup k = some v := by
  intro l
  induction l with
  | nil => intro _ k v hm; simp at hm
  | cons p t ih =>
    intro hnd k v hm
    obtain ⟨a, b⟩ := p
    rcases List.mem_cons.1 hm with he | ht
    · cases he
      simp [List.lookup]
    · have hne : k ≠ a := by
        intro hk
        subst hk
        exact (List.nodup_cons.1 hnd).1
          (List.mem_map.2 ⟨(k, v), ht, rfl⟩)
      have h1 : (k == a) = false := beq_eq_false_iff_ne.2 hne
      rw [List.lookup, h1]
      exact ih (List.nodup_cons.1 hnd).2 ht

/-! ### Claim C6: last-write-wins in `groupByName` -/

theorem lookup_groupByName_go (files : List FileInfo) :
    ∀ (m : List (String × FileInfo)) (n : String),
    (files.foldl (fun m f => mapInsert m (baseOf f) f) m).lookup n =
      files.foldl (fun acc f => if baseOf f == n then some f else acc)
        (m.lookup n) := by
  induction files with
  | nil => intro m n; rfl
  | cons f fs ih =>
    intro m n
    rw [List.foldl_cons, ih, List.foldl_cons, lookup_mapInsert]
    by_cases h : baseOf f = n
    · simp [h]
    · have h1 : (baseOf f == n) = false := beq_eq_false_iff_ne.2 h
      have h2 : n ≠ baseOf f := fun hx => h hx.symm
      simp [h1, h2]

theorem foldl_last_choice (P : FileInfo → Bool) :
    ∀ (l : List FileInfo) (acc : Option FileInfo),
    l.foldl (fun a x => if P x then some x else a) acc =
      (l.reverse.find? P).or acc := by
  intro l
  induction l with
  | nil => intro acc; simp
  | cons x t ih =>
    intro acc
    rw [List.foldl_cons, ih, List.reverse_cons, List.find?_append,
      Option.or_assoc]
    congr 1
    cases hP : P x <;> simp [List.find?, hP]

/-- The name→record mapping built by `groupByName`: looking up a basename
returns exactly the last record of the input list with that basename. -/
theorem groupByName_lookup_eq_last (files : List FileInfo) (n : String) :
    (groupByName files).lookup n =
      files.reverse.find? (fun f => baseOf f == n) := by
  rw [groupByName, lookup_groupByName_go]
  have h0 : (([] : List (String × FileInfo)).lookup n) = none := rfl
  rw [h0, foldl_last_choice, Option.or_none]

/-! ### Claim C1: the duplicate-set build step -/

/-- C1 (amended): `convertToDuplicateSets` emits one DuplicateSet per
FileMatch unconditionally — checked-different and not-checked matches are not
dropped — and every emitted set has an empty fingerprint and a false
verified flag (content is only confirmed on demand inside the session). -/
theorem C1_build_emits_all_matches (comparisons : List PairComparison)
    (n : Nat) :
    (convertToDuplicateSets comparisons n).length =
      (comparisons.map (fun c => c.fileMatches.length)).sum ∧
    ∀ s ∈ convertToDuplicateSets comparisons n,
      s.hashComputed = false ∧ s.hash = "" := by
  constructor
  · rw [convertToDuplicateSets, List.length_flatMap]
    congr 1
    refine List.map_congr_left ?_
    intro c _
    simp [Function.comp]
  · intro s hs
    rw [convertToDuplicateSets] at hs
    obtain ⟨c, _, hs⟩ := List.mem_flatMap.1 hs
    obtain ⟨m, _, rfl⟩ := List.mem_map.1 hs
    exact ⟨rfl, rfl⟩

/-- C1 witness: a comparison with two matches yields two sets, both
unverified with empty fingerprints. -/
theorem C1_witness :
    (convertToDuplicateSets
        [{ dir1 := "d1", dir2 := "d2",
           fileMatches := [{ filename := "a" }, { filename := "b" }] }]
        2).length = 2 ∧
    ({ files := [{}, {}] } : DuplicateSet).hashComputed = false ∧
    ({ files := [{}, {}] } : DuplicateSet).hash = "" := by
  have h := C1_build_emits_all_matches
    [{ dir1 := "d1", dir2 := "d2",
       fileMatches := [{ filename := "a" }, { filename := "b" }] }] 2
  exact ⟨by simpa using h.1, h.2 { files := [{}, {}] } (by decide)⟩

/-- C1 counterexample to the claim as stated: a comparison whose only match
is checked-different yields one DuplicateSet, not zero. -/
theorem C1_counterexample :
    (convertToDuplicateSets
        [{ dir1 := "d1", dir2 := "d2",
           fileMatches := [{ filename := "same.txt",
                             file1 := { path := "/d1/same.txt", hash := "h1" },
                             file2 := { path := "/d2/same.txt", hash := "h2" },
                             hashChecked := true, hashMatch := false }] }]
        1).length = 1 ∧
    (1 : Nat) ≠ 0 := by
  exact ⟨rfl, by decide⟩

/-! ### Claim C2: memoization around `ComputeHashesParallel` -/

/-- C2 (amended): the skip of already-populated fingerprints lives in the
caller `computeHashForSet`, which passes only records with empty
fingerprints to `ComputeHashesParallel`.  On a set whose members all carry a
fingerprint, on-demand hashing performs no hashing at all: the result is
independent of the hash oracle and every fingerprint is unchanged. -/
theorem C2_computeHashForSet_skips_populated
    (hashFile : String → Option String) (set : DuplicateSet)
    (h : ∀ f ∈ set.files, f.hash ≠ "") :
    computeHashForSet hashFile set = .ok { set with hashComputed := true } := by
  have hfil : set.files.filter (fun f => f.hash == "") = [] :=
    List.filter_eq_nil_iff.2 (fun f hf => by simpa using h f hf)
  rw [computeHashForSet]
  simp [hfil]

/-- C2 witness: a fully fingerprinted two-member set, with a hash oracle that
would yield a different value if it were consulted. -/
theorem C2_witness :
    computeHashForSet (fun _ => some "X")
        { files := [{ path := "a", hash := "h1" },
                    { path := "b", hash := "h2" }] } =
      .ok { files := [{ path := "a", hash := "h1" },
                      { path := "b", hash := "h2" }],
            hashComputed := true } :=
  C2_computeHashForSet_skips_populated (fun _ => some "X")
    { files := [{ path := "a", hash := "h1" }, { path := "b", hash := "h2" }] }
    (by decide)

/-- C2 counterexample to the claim as stated: `ComputeHashesParallel` itself
recomputes a record whose fingerprint is already populated — the fingerprint
changes when the file content changed out of band. -/
theorem C2_counterexample :
    ComputeHashesParallel (fun p => if p == "f" then some "new" else none)
        [{ path := "f", hash := "old" }] =
      [{ path := "f", hash := "new" }] ∧
    ("new" : String) ≠ "old" := by
  exact ⟨by decide, by decide⟩

/-! ### Facts about `computeHashesForMatches`, shared by several claims -/

theorem mem_computeHashesForMatches_marks (hashFile : String → Option String)
    (ms : List FileMatch) :
    ∀ m ∈ computeHashesForMatches hashFile ms,
      m.hashChecked = true ∧
      m.hashMatch = (m.file1.hash == m.file2.hash && m.file1.hash != "") := by
  intro m hm
  rw [computeHashesForMatches] at hm
  obtain ⟨m1, _, rfl⟩ := List.mem_map.1 hm
  exact ⟨rfl, rfl⟩

theorem mem_computeHashesForMatches_src {hashFile : String → Option String}
    {ms : List FileMatch} {m : FileMatch}
    (hm : m ∈ computeHashesForMatches hashFile ms) :
    ∃ m0 ∈ ms, m.filename = m0.filename := by
  simp only [computeHashesForMatches, List.map_map, List.mem_map] at hm
  obtain ⟨m0, hm0, rfl⟩ := hm
  exact ⟨m0, hm0, rfl⟩

theorem length_computeHashesForMatches (hashFile : String → Option String)
    (ms : List FileMatch) :
    (computeHashesForMatches hashFile ms).length = ms.length := by
  simp [computeHashesForMatches]

/-! ### Claim C3: checked status vs populated fingerprints -/

/-- C3 (amended): after hashing, a `FileMatch` is always marked
`HashChecked = true` — even when a record's hashing failed and its
fingerprint stayed empty (such a match reads as checked-different, since
`HashMatch` demands equal non-empty fingerprints); and `computeHashForSet`
marks a set `HashComputed = true` whenever it returns successfully,
including the case where every fingerprint is left empty. -/
theorem C3_checked_even_when_unpopulated :
    (∀ (hashFile : String → Option String) (ms : List FileMatch),
      ∀ m ∈ computeHashesForMatches hashFile ms,
        m.hashChecked = true ∧
        m.hashMatch = (m.file1.hash == m.file2.hash && m.file1.hash != "")) ∧
    (∀ (hashFile : String → Option String) (set set2 : DuplicateSet),
      computeHashForSet hashFile set = .ok set2 → set2.hashComputed = true) := by
  constructor
  · exact mem_computeHashesForMatches_marks
  · intro hashFile set set2 h
    rw [computeHashForSet] at h
    dsimp only at h
    split at h
    · cases h; rfl
    · split at h
      · cases h; rfl
      · split at h
        · cases h; rfl
        · cases h

/-- C3 witness: a set whose members hash identically is marked computed, and
its matches checked. -/
theorem C3_witness :
    ({ filename := "t", file1 := { path := "x", hash := "H" },
       file2 := { path := "y", hash := "H" },
       hashChecked := true, hashMatch := true } : FileMatch).hashChecked = true ∧
    ({ files := [{ path := "x", hash := "H" }, { path := "y", hash := "H" }],
       hash := "H", hashComputed := true } : DuplicateSet).hashComputed = true := by
  refine ⟨(C3_checked_even_when_unpopulated.1 (fun _ => some "H")
      [{ filename := "t", file1 := { path := "x" }, file2 := { path := "y" } }]
      { filename := "t", file1 := { path := "x", hash := "H" },
        file2 := { path := "y", hash := "H" },
        hashChecked := true, hashMatch := true } (by decide)).1,
    C3_checked_even_when_unpopulated.2 (fun _ => some "H")
      { files := [{ path := "x" }, { path := "y" }] }
      { files := [{ path := "x", hash := "H" }, { path := "y", hash := "H" }],
        hash := "H", hashComputed := true } (by rfl)⟩

/-- C3 counterexample to the claim as stated: with a hash oracle that fails
on every path, the match is still marked `HashChecked = true` with both
fingerprints empty, and the set is still marked `HashComputed = true` with
all fingerprints empty. -/
theorem C3_counterexample :
    computeHashesForMatches (fun _ => none)
        [{ filename := "t", file1 := { path := "x" }, file2 := { path := "y" } }] =
      [{ filename := "t", file1 := { path := "x" }, file2 := { path := "y" },
         hashChecked := true, hashMatch := false }] ∧
    computeHashForSet (fun _ => none)
        { files := [{ path := "x" }, { path := "y" }] } =
      .ok { files := [{ path := "x" }, { path := "y" }],
            hashComputed := true } := by
  exact ⟨by decide, by rfl⟩

/-! ### Claim C9: the executing phase -/

theorem executeDeletions_go (deleter : String → DeletionResult)
    (actions : List UserAction) : ∀ base : SessionSummary,
    executeDeletions deleter base actions =
      { base with
        results := base.results ++ actions.map (fun a => deleter a.deleteFile),
        filesDeleted := base.filesDeleted +
          ((actions.map (fun a => deleter a.deleteFile)).filter
            (fun r => r.success)).length,
        filesFailed := base.filesFailed +
          ((actions.map (fun a => deleter a.deleteFile)).filter
            (fun r => !r.success)).length,
        spaceFreed := base.spaceFreed +
          (((actions.map (fun a => deleter a.deleteFile)).filter
            (fun r => r.success)).map (fun r => r.sizeFreed)).sum } := by
  induction actions with
  | nil => intro base; simp [executeDeletions]
  | cons a rest ih =>
    intro base
    have hstep : executeDeletions deleter base (a :: rest) =
        executeDeletions deleter
          (let r := deleter a.deleteFile
           let s1 := { base with results := base.results ++ [r] }
           if r.success then
             { s1 with filesDeleted := s1.filesDeleted + 1,
                       spaceFreed := s1.spaceFreed + r.sizeFreed }
           else { s1 with filesFailed := s1.filesFailed + 1 }) rest := rfl
    rw [hstep, ih]
    cases hs : (deleter a.deleteFile).success <;>
      simp only [hs, if_true, if_false, Bool.false_eq_true, ite_false, ite_true,
        List.map_cons, List.filter_cons, Bool.not_false, Bool.not_true,
        SessionSummary.mk.injEq, List.append_assoc, List.cons_append,
        List.nil_append, List.length_cons, List.map_cons, List.sum_cons] <;>
      (repeat' apply And.intro) <;>
      first | trivial | omega

/-- C9: in the executing phase the session invokes the Deleter exactly once
per recorded action, in recording order (the results list is precisely the
per-action map of the Deleter, so no failure stops later attempts), and the
final summary satisfies `SetsProcessed` = number of actions,
`FilesDeleted` = number of successful results, `FilesFailed` = number of
failed results, and `SpaceFreed` = sum of `SizeFreed` over the successful
results. -/
theorem C9_executing_spec (deleter : String → DeletionResult) (nSets : Nat)
    (actions : List UserAction) :
    (executeDeletions deleter
        { totalSets := nSets, setsProcessed := actions.length } actions).results
      = actions.map (fun a => deleter a.deleteFile) ∧
    (executeDeletions deleter
        { totalSets := nSets, setsProcessed := actions.length } actions).totalSets
      = nSets ∧
    (executeDeletions deleter
        { totalSets := nSets, setsProcessed := actions.length } actions).setsProcessed
      = actions.length ∧
    (executeDeletions deleter
        { totalSets := nSets, setsProcessed := actions.length } actions).filesDeleted
      = ((actions.map (fun a => deleter a.deleteFile)).filter
          (fun r => r.success)).length ∧
    (executeDeletions deleter
        { totalSets := nSets, setsProcessed := actions.length } actions).filesFailed
      = ((actions.map (fun a => deleter a.deleteFile)).filter
          (fun r => !r.success)).length ∧
    (executeDeletions deleter
        { totalSets := nSets, setsProcessed := actions.length } actions).spaceFreed
      = (((actions.map (fun a => deleter a.deleteFile)).filter
          (fun r => r.success)).map (fun r => r.sizeFreed)).sum := by
  rw [executeDeletions_go]
  simp

/-! ### Claim C10: batch-by-directory mode -/

/-- C10: once a batch rule is active, the session never consumes another
prompt during browsing: every remaining set is processed automatically, in
order, until the set list is exhausted, recording a delete action for
exactly the member records whose directory equals the per-set delete
directory derived from the remembered keep side. -/
theorem C10_batch_mode_auto (hashFile : String → Option String)
    (sets : List DuplicateSet) (prompts : List (Except String UserAction))
    (batchDirAction : String) (actions : List UserAction)
    (h : batchDirAction ≠ "") :
    browse hashFile sets prompts batchDirAction actions =
      .ok (actions ++ sets.flatMap (batchDeleteActions batchDirAction),
           prompts) := by
  induction sets generalizing actions with
  | nil => simp [browse]
  | cons set rest ih =>
    have hcond : (batchDirAction != "") = true := bne_iff_ne.mpr h
    simp only [browse, hcond, if_true]
    rw [ih (actions ++ batchDeleteActions batchDirAction set)]
    simp [List.flatMap_cons, List.append_assoc]

/-- C10 witness: with batch mode active (keep side 1), two remaining sets
are resolved with zero prompt consumption, deleting the side-2 members. -/
theorem C10_witness :
    browse (fun _ => none)
        [{ files := [{ path := "/d1/t", directory := "d1" },
                     { path := "/d2/t", directory := "d2" }] },
         { files := [{ path := "/d1/u", directory := "d1" },
                     { path := "/d2/u", directory := "d2" }] }]
        [.error "never consulted"] "keep_dir1" [] =
      .ok ([{ action := "delete", deleteFile := "/d2/t" },
            { action := "delete", deleteFile := "/d2/u" }],
           [.error "never consulted"]) := by
  have h := C10_batch_mode_auto (fun _ => none)
    [{ files := [{ path := "/d1/t", directory := "d1" },
                 { path := "/d2/t", directory := "d2" }] },
     { files := [{ path := "/d1/u", directory := "d1" },
                 { path := "/d2/u", directory := "d2" }] }]
    [.error "never consulted"] "keep_dir1" [] (by decide)
  exact h.trans (by rfl)

/-! ### Claim C8: quit aborts with zero deletions -/

/-- C8: whenever the browsing loop aborts with an error — which is exactly
what choosing quit produces, since `PromptUserAction` returns the error
"user quit" and the session propagates every prompt error other than
"user finished" — the session returns that error with zero Deleter
invocations and zero `DeletionResult`s, regardless of the sets seen or the
actions accumulated before the quit. -/
theorem C8_quit_no_deletions (hashFile : String → Option String)
    (deleter : String → DeletionResult) (comparisons : List PairComparison)
    (opts : ScanOptions) (prompts : List (Except String UserAction))
    (confirm : Bool) (e : String)
    (h : browse hashFile (convertToDuplicateSets comparisons opts.numWorkers)
          prompts "" [] = .error e) :
    runInteractiveSession hashFile deleter comparisons opts prompts confirm =
      (.error e, []) := by
  rw [runInteractiveSession]
  split
  · next hempty =>
    exfalso
    rw [List.isEmpty_iff.1 hempty] at h
    simp [browse] at h
  · rw [h]

/-- C8 witness: the user chooses quit at the first prompt; the session
returns the "user quit" error, an empty Deleter log and no results. -/
theorem C8_witness :
    browse (fun _ => none)
        (convertToDuplicateSets
          [{ dir1 := "d1", dir2 := "d2",
             fileMatches := [{ filename := "t",
                               file1 := { path := "/d1/t", directory := "d1" },
                               file2 := { path := "/d2/t", directory := "d2" } }] }]
          (ScanOptions.numWorkers {}))
        [.error "user quit"] "" [] = .error "user quit" ∧
    runInteractiveSession (fun _ => none)
        (fun p => { path := p, success := true, sizeFreed := 1 })
        [{ dir1 := "d1", dir2 := "d2",
           fileMatches := [{ filename := "t",
                             file1 := { path := "/d1/t", directory := "d1" },
                             file2 := { path := "/d2/t", directory := "d2" } }] }]
        {} [.error "user quit"] true = (.error "user quit", []) := by
  refine ⟨by rfl, C8_quit_no_deletions (fun _ => none)
    (fun p => { path := p, success := true, sizeFreed := 1 })
    [{ dir1 := "d1", dir2 := "d2",
       fileMatches := [{ filename := "t",
                         file1 := { path := "/d1/t", directory := "d1" },
                         file2 := { path := "/d2/t", directory := "d2" } }] }]
    {} [.error "user quit"] true "user quit" (by rfl)⟩

/-! ### Sorting lemmas for `sortMatches` -/

theorem perm_insertByFilename (m : FileMatch) (l : List FileMatch) :
    (insertByFilename m l).Perm (m :: l) := by
  induction l with
  | nil => exact List.Perm.refl _
  | cons x xs ih =>
    rw [insertByFilename]
    split
    · exact List.Perm.refl _
    · exact (ih.cons x).trans (List.Perm.swap m x xs)

theorem perm_sortMatches (l : List FileMatch) : (sortMatches l).Perm l := by
  induction l with
  | nil => exact List.Perm.refl _
  | cons x xs ih =>
    rw [sortMatches, List.foldr_cons]
    exact (perm_insertByFilename x (xs.foldr insertByFilename [])).trans
      (ih.cons x)

theorem sorted_insertByFilename {m : FileMatch} {l : List FileMatch}
    (h : l.Sorted (fun a b => a.filename ≤ b.filename)) :
    (insertByFilename m l).Sorted (fun a b => a.filename ≤ b.filename) := by
  induction l with
  | nil => simp [insertByFilename]
  | cons x xs ih =>
    rw [insertByFilename]
    obtain ⟨hx, hxs⟩ := List.sorted_cons.1 h
    split
    · next hle =>
      rw [List.sorted_cons]
      refine ⟨?_, h⟩
      intro b hb
      rcases List.mem_cons.1 hb with rfl | hb
      · exact hle
      · exact le_trans hle (hx b hb)
    · next hle =>
      rw [List.sorted_cons]
      refine ⟨?_, ih hxs⟩
      intro b hb
      rcases List.mem_cons.1 ((perm_insertByFilename m xs).mem_iff.1 hb)
        with rfl | hb3
      · exact le_of_not_le hle
      · exact hx b hb3

theorem sorted_sortMatches (l : List FileMatch) :
    (sortMatches l).Sorted (fun a b => a.filename ≤ b.filename) := by
  induction l with
  | nil => simp [sortMatches]
  | cons x xs ih => exact sorted_insertByFilename ih

/-! ### Counting and membership lemmas for `findCommonFiles` -/

theorem length_findCommonFiles (g1 g2 : List (String × FileInfo)) :
    (findCommonFiles g1 g2).length =
      ((g1.map Prod.fst).filter (fun n => (g2.lookup n).isSome)).length := by
  induction g1 with
  | nil => rfl
  | cons p t ih =>
    simp only [findCommonFiles, List.filterMap_cons, List.map_cons,
      List.filter_cons] at *
    cases hlk : g2.lookup p.1 with
    | none => simp [hlk, ih]
    | some f2 => simp [hlk, ih]

theorem mem_findCommonFiles {g1 g2 : List (String × FileInfo)}
    {m : FileMatch} (hm : m ∈ findCommonFiles g1 g2) :
    (m.filename, m.file1) ∈ g1 ∧ g2.lookup m.filename = some m.file2 := by
  obtain ⟨p, hp, he⟩ := List.mem_filterMap.1 hm
  cases hlk : g2.lookup p.1 with
  | none => rw [hlk] at he; exact absurd he (by simp)
  | some f2 =>
    rw [hlk] at he
    cases Option.some.inj he
    exact ⟨hp, hlk⟩

theorem keys_groupByName_mem (A : List FileInfo) (n : String) :
    n ∈ (groupByName A).map Prod.fst ↔ n ∈ A.map baseOf := by
  rw [groupByName]
  simpa using mem_keys_groupByName_go A [] n

theorem keys_groupByName_nodup (A : List FileInfo) :
    ((groupByName A).map Prod.fst).Nodup := by
  rw [groupByName]
  exact nodup_keys_groupByName_go A [] (by simp)

theorem length_matches_eq_card (A B : List FileInfo) :
    (findCommonFiles (groupByName A) (groupByName B)).length =
      ((A.map baseOf).toFinset ∩ (B.map baseOf).toFinset).card := by
  classical
  rw [length_findCommonFiles]
  have hmemB : ∀ n, ((groupByName B).lookup n).isSome = true ↔
      n ∈ (B.map baseOf).toFinset := by
    intro n
    rw [lookup_isSome_iff, List.mem_toFinset]
    exact keys_groupByName_mem B n
  have hfilnd :
      (((groupByName A).map Prod.fst).filter
        (fun n => ((groupByName B).lookup n).isSome)).Nodup :=
    (keys_groupByName_nodup A).filter _
  rw [← List.toFinset_card_of_nodup hfilnd, List.toFinset_filter]
  congr 1
  have hset : ((groupByName A).map Prod.fst).toFinset =
      (A.map baseOf).toFinset := by
    ext n
    rw [List.mem_toFinset, List.mem_toFinset]
    exact keys_groupByName_mem A n
  calc ((groupByName A).map Prod.fst).toFinset.filter
          (fun n => ((groupByName B).lookup n).isSome = true)
      = ((groupByName A).map Prod.fst).toFinset.filter
          (fun n => n ∈ (B.map baseOf).toFinset) := by
        refine Finset.filter_congr ?_
        intro x _
        simp [hmemB x]
    _ = ((groupByName A).map Prod.fst).toFinset ∩ (B.map baseOf).toFinset :=
        Finset.filter_mem_eq_inter
    _ = (A.map baseOf).toFinset ∩ (B.map baseOf).toFinset := by rw [hset]

theorem mem_findCommonFiles_basenames {A B : List FileInfo} {m : FileMatch}
    (hm : m ∈ findCommonFiles (groupByName A) (groupByName B)) :
    m.filename ∈ A.map baseOf ∧ m.filename ∈ B.map baseOf := by
  obtain ⟨h1, h2⟩ := mem_findCommonFiles hm
  constructor
  · exact (keys_groupByName_mem A m.filename).1
      (List.mem_map.2 ⟨(m.filename, m.file1), h1, rfl⟩)
  · refine (keys_groupByName_mem B m.filename).1 ?_
    rw [← lookup_isSome_iff, h2]
    rfl

/-! ### Claim C6: last-write-wins on duplicate basenames within one side -/

/-- C6: within one side's input list, when records share a basename the one
occurring later in the list wins: the name→record mapping returns exactly
the last record with the looked-up basename, and consequently every match
`ComparePair` emits carries, on each side, the last record of that side with
the match's basename — the earlier record never appears. -/
theorem C6_last_write_wins :
    (∀ (files : List FileInfo) (n : String),
      (groupByName files).lookup n =
        files.reverse.find? (fun f => baseOf f == n)) ∧
    (∀ (hashFile : String → Option String) (A B : List FileInfo)
        (m : FileMatch),
      m ∈ (ComparePair { compareHash := false } hashFile A B).fileMatches →
      A.reverse.find? (fun f => baseOf f == m.filename) = some m.file1 ∧
      B.reverse.find? (fun f => baseOf f == m.filename) = some m.file2) := by
  refine ⟨groupByName_lookup_eq_last, ?_⟩
  intro hashFile A B m hm
  have hfm : (ComparePair { compareHash := false } hashFile A B).fileMatches =
      sortMatches (findCommonFiles (groupByName A) (groupByName B)) := rfl
  rw [hfm, (perm_sortMatches _).mem_iff] at hm
  obtain ⟨h1, h2⟩ := mem_findCommonFiles hm
  constructor
  · rw [← groupByName_lookup_eq_last]
    exact mem_lookup_of_nodup_keys (keys_groupByName_nodup A) h1
  · rw [← groupByName_lookup_eq_last]
    exact h2

/-- C6 witness: one side holds two records reducing to basename "t.txt";
the mapping returns the later one, and in the resulting match the later
record is the one carried (the earlier never appears). -/
theorem C6_witness :
    (groupByName [{ path := "/d1/a/t.txt", hash := "first" },
                  { path := "/d1/b/t.txt", hash := "second" }]).lookup "t.txt" =
      some { path := "/d1/b/t.txt", hash := "second" } ∧
    ([({ path := "/d1/a/t.txt", hash := "first" } : FileInfo),
      { path := "/d1/b/t.txt", hash := "second" }].reverse.find?
        (fun f => baseOf f == "t.txt")) =
      some { path := "/d1/b/t.txt", hash := "second" } := by
  refine ⟨?_, by decide⟩
  rw [C6_last_write_wins.1
    [{ path := "/d1/a/t.txt", hash := "first" },
     { path := "/d1/b/t.txt", hash := "second" }] "t.txt"]
  decide

/-! ### Claim C5: `ComparePair` returns the basename intersection, sorted -/

/-- C5: for all file lists A and B, `ComparePair` returns one match per
basename in the intersection of the two sides' basename sets and nothing
else — the match count equals |basenames(A) ∩ basenames(B)| — every returned
match's filename is a basename present on both sides, and the returned
matches are sorted by filename in ascending order. -/
theorem C5_comparePair_spec (opts : ScanOptions)
    (hashFile : String → Option String) (A B : List FileInfo) :
    (ComparePair opts hashFile A B).fileMatches.length =
      ((A.map baseOf).toFinset ∩ (B.map baseOf).toFinset).card ∧
    (∀ m ∈ (ComparePair opts hashFile A B).fileMatches,
      m.filename ∈ A.map baseOf ∧ m.filename ∈ B.map baseOf) ∧
    (ComparePair opts hashFile A B).fileMatches.Sorted
      (fun a b => a.filename ≤ b.filename) := by
  have hfm : (ComparePair opts hashFile A B).fileMatches =
      sortMatches (if opts.compareHash &&
          !(findCommonFiles (groupByName A) (groupByName B)).isEmpty then
        computeHashesForMatches hashFile
          (findCommonFiles (groupByName A) (groupByName B))
      else findCommonFiles (groupByName A) (groupByName B)) := rfl
  rw [hfm]
  refine ⟨?_, ?_, sorted_sortMatches _⟩
  · rw [(perm_sortMatches _).length_eq]
    split
    · rw [length_computeHashesForMatches, length_matches_eq_card]
    · rw [length_matches_eq_card]
  · intro m hm
    rw [(perm_sortMatches _).mem_iff] at hm
    split at hm
    · obtain ⟨m0, hm0, hfe⟩ := mem_computeHashesForMatches_src hm
      rw [hfe]
      exact mem_findCommonFiles_basenames hm0
    · exact mem_findCommonFiles_basenames hm

/-- C5 witness: two two-file directories sharing exactly the basename
"y.txt" produce exactly one match, whose filename is a basename of both
sides. -/
theorem C5_witness :
    (ComparePair {} (fun _ => none)
        [{ path := "/d1/x.txt" }, { path := "/d1/y.txt" }]
        [{ path := "/d2/y.txt" }, { path := "/d2/z.txt" }]).fileMatches.length
      = 1 ∧
    ("y.txt" ∈ [({ path := "/d1/x.txt" } : FileInfo),
                { path := "/d1/y.txt" }].map baseOf ∧
     "y.txt" ∈ [({ path := "/d2/y.txt" } : FileInfo),
                { path := "/d2/z.txt" }].map baseOf) := by
  have h := C5_comparePair_spec {} (fun _ => none)
    [{ path := "/d1/x.txt" }, { path := "/d1/y.txt" }]
    [{ path := "/d2/y.txt" }, { path := "/d2/z.txt" }]
  exact ⟨h.1.trans (by decide),
    h.2.1 { filename := "y.txt", file1 := { path := "/d1/y.txt" },
            file2 := { path := "/d2/y.txt" } } (by decide)⟩

/-! ### Claim C7: verification marks every match, identical iff equal
non-empty fingerprints -/

/-- C7: when `ComparePair` runs with content verification enabled, after
hashing every returned match has `HashChecked = true`, and `HashMatch` holds
exactly when both sides' fingerprints are equal and non-empty (equality of
hashes with a non-empty first hash forces the second non-empty too, so this
is the claim's "both non-empty and equal"); otherwise the match reads as
checked-different. -/
theorem C7_verification_marks (opts : ScanOptions)
    (hashFile : String → Option String) (A B : List FileInfo)
    (h : opts.compareHash = true) :
    ∀ m ∈ (ComparePair opts hashFile A B).fileMatches,
      m.hashChecked = true ∧
      (m.hashMatch = true ↔
        (m.file1.hash = m.file2.hash ∧ m.file1.hash ≠ "")) := by
  intro m hm
  have hfm : (ComparePair opts hashFile A B).fileMatches =
      sortMatches (if opts.compareHash &&
          !(findCommonFiles (groupByName A) (groupByName B)).isEmpty then
        computeHashesForMatches hashFile
          (findCommonFiles (groupByName A) (groupByName B))
      else findCommonFiles (groupByName A) (groupByName B)) := rfl
  rw [hfm, (perm_sortMatches _).mem_iff, h] at hm
  cases hb : (findCommonFiles (groupByName A) (groupByName B)).isEmpty with
  | true =>
    rw [List.isEmpty_iff.1 hb] at hm
    simp [computeHashesForMatches] at hm
  | false =>
    rw [hb] at hm
    simp only [Bool.not_false, Bool.and_true, if_true] at hm
    obtain ⟨hc, hmtch⟩ := mem_computeHashesForMatches_marks hashFile _ m hm
    refine ⟨hc, ?_⟩
    rw [hmtch]
    simp [Bool.and_eq_true, beq_iff_eq, bne_iff_ne]

/-- C7 witness: verification on two directories sharing "y.txt" with
identical content marks the single match checked with matching non-empty
fingerprints. -/
theorem C7_witness :
    ({ filename := "y.txt",
       file1 := { path := "/d1/y.txt", hash := "H" },
       file2 := { path := "/d2/y.txt", hash := "H" },
       hashChecked := true, hashMatch := true } : FileMatch).hashChecked = true ∧
    (({ filename := "y.txt",
        file1 := { path := "/d1/y.txt", hash := "H" },
        file2 := { path := "/d2/y.txt", hash := "H" },
        hashChecked := true, hashMatch := true } : FileMatch).hashMatch = true ↔
      (("H" : String) = "H" ∧ ("H" : String) ≠ "")) :=
  C7_verification_marks { compareHash := true } (fun _ => some "H")
    [{ path := "/d1/y.txt" }] [{ path := "/d2/y.txt" }] rfl
    { filename := "y.txt",
      file1 := { path := "/d1/y.txt", hash := "H" },
      file2 := { path := "/d2/y.txt", hash := "H" },
      hashChecked := true, hashMatch := true } (by decide)

end DupFinder
